import Mathlib

/-!
Shallow embedding, in exact rational arithmetic, of the core trading logic of
the Test-server repository: the single-stock reinforcement-learning trading
environment (`rl_trading_env.py`), the technical-indicator pipeline
(`technical_indicators.py`), and the risk gate, order execution/audit and
performance aggregation of `trading_api.py` (with the brokerage client
`kis_broker.py`), together with theorems settling the specification claims
about them.
-/

namespace RlEnv

/-- Mirror of `TradingEnvConfig` in `rl_trading_env.py` (the csv path is
replaced by passing the price series explicitly). -/
structure TradingEnvConfig where
  windowSize : ℕ
  initialCash : ℚ
  maxPosition : ℚ
  transactionCost : ℚ
  rewardScale : ℚ
deriving DecidableEq

/-- The mutable state of `SingleStockTradingEnv`: `_current_step`,
`_position`, `_equity` (`_cash` and `_equity_start` never enter `step`). -/
structure EnvState where
  currentStep : ℕ
  position : ℚ
  equity : ℚ
deriving DecidableEq

/-- The `1e-6` floor used in `SingleStockTradingEnv.step`. -/
def epsFloor : ℚ := 1 / 1000000

/-- `np.clip(x, lo, hi)` as used on the action: `min (max x lo) hi`. -/
def npClip (x lo hi : ℚ) : ℚ := min (max x lo) hi

/-- Everything `SingleStockTradingEnv.step` returns or records:
the new internal state, the reward, the termination flag, and the
`info` diagnostics plus the intermediate trade cost and pnl. -/
structure StepResult where
  state : EnvState
  reward : ℚ
  terminated : Bool
  priceReturn : ℚ
  stepReturn : ℚ
  tradeCost : ℚ
  pnl : ℚ
deriving DecidableEq

/-- `SingleStockTradingEnv.step` from `rl_trading_env.py` (lines 92-134),
line by line: clip the action to `[-max_position, max_position]`, charge
`equity * |Δposition| * transaction_cost`, compute the price return (0 when
the previous price is ≤ 0), `pnl = prev_equity * target_pos * price_return -
trade_cost`, floor the new equity at `1e-6`, and advance the cursor. -/
def step (cfg : TradingEnvConfig) (prices : List ℚ) (s : EnvState) (action : ℚ) :
    StepResult :=
  let targetPos := npClip action (-cfg.maxPosition) cfg.maxPosition
  let prevPrice := prices.getD (s.currentStep - 1) 0
  let currPrice := prices.getD s.currentStep 0
  let posChange := |targetPos - s.position|
  let tradeCost := s.equity * posChange * cfg.transactionCost
  let priceReturn := if prevPrice ≤ 0 then 0 else (currPrice - prevPrice) / prevPrice
  let prevEquity := s.equity
  let pnl := prevEquity * targetPos * priceReturn - tradeCost
  let newEquity := max (prevEquity + pnl) epsFloor
  let stepReturn := (newEquity - prevEquity) / max prevEquity epsFloor
  { state := { currentStep := s.currentStep + 1, position := targetPos, equity := newEquity }
    reward := cfg.rewardScale * stepReturn
    terminated := decide (prices.length - 1 ≤ s.currentStep + 1)
    priceReturn := priceReturn
    stepReturn := stepReturn
    tradeCost := tradeCost
    pnl := pnl }

/-- `SingleStockTradingEnv.reset`: cursor at `window_size`, position 0,
equity at `initial_cash`. -/
def resetState (cfg : TradingEnvConfig) : EnvState :=
  { currentStep := cfg.windowSize, position := 0, equity := cfg.initialCash }

/-- Driving the environment through a list of actions. -/
def runSteps (cfg : TradingEnvConfig) (prices : List ℚ) :
    EnvState → List ℚ → EnvState
  | s, [] => s
  | s, a :: rest => runSteps cfg prices (step cfg prices s a).state rest

end RlEnv

namespace RlEnv

lemma step_state_equity (cfg : TradingEnvConfig) (prices : List ℚ) (s : EnvState)
    (a : ℚ) :
    (step cfg prices s a).state.equity
      = max (s.equity + (step cfg prices s a).pnl) epsFloor := rfl

lemma step_flat_preserves (cfg : TradingEnvConfig) (prices : List ℚ) (s : EnvState)
    (a : ℚ) (hc : cfg.transactionCost = 0)
    (ha : npClip a (-cfg.maxPosition) cfg.maxPosition = 0)
    (hp : s.position = 0) (hE : epsFloor ≤ s.equity) :
    (step cfg prices s a).state.equity = s.equity ∧
      (step cfg prices s a).state.position = 0 := by
  constructor
  · show max (s.equity + (s.equity * (npClip a (-cfg.maxPosition) cfg.maxPosition) *
      (if prices.getD (s.currentStep - 1) 0 ≤ 0 then 0 else
        (prices.getD s.currentStep 0 - prices.getD (s.currentStep - 1) 0) /
          prices.getD (s.currentStep - 1) 0) -
      s.equity * |npClip a (-cfg.maxPosition) cfg.maxPosition - s.position| *
        cfg.transactionCost)) epsFloor = s.equity
    rw [ha, hc, hp]
    simp [max_eq_left hE]
  · show npClip a (-cfg.maxPosition) cfg.maxPosition = 0
    exact ha

lemma runSteps_flat (cfg : TradingEnvConfig) (prices : List ℚ)
    (hc : cfg.transactionCost = 0) :
    ∀ (actions : List ℚ) (s : EnvState),
      (∀ a ∈ actions, npClip a (-cfg.maxPosition) cfg.maxPosition = 0) →
      s.position = 0 → epsFloor ≤ s.equity →
      (runSteps cfg prices s actions).equity = s.equity ∧
        (runSteps cfg prices s actions).position = 0
  | [], s, _, hp, _ => ⟨rfl, hp⟩
  | a :: rest, s, ha, hp, hE => by
      have h0 := step_flat_preserves cfg prices s a hc (ha a (List.mem_cons_self a rest)) hp hE
      have hrec := runSteps_flat cfg prices hc rest (step cfg prices s a).state
        (fun b hb => ha b (List.mem_cons_of_mem a hb)) h0.2 (h0.1 ▸ hE)
      exact ⟨by rw [runSteps, hrec.1, h0.1], by rw [runSteps, hrec.2]⟩

/-- C5: in a step from previous position `q`, previous equity `E > 0`, with
clipped target position `p` and price return `r` as computed by `step`, the
trade cost is `E * |p - q| * transaction_cost`, the pnl is `E * p * r` minus
that trade cost, and the new equity is `max (E + pnl) 1e-6`. -/
theorem step_accounting (cfg : TradingEnvConfig) (prices : List ℚ) (s : EnvState)
    (a : ℚ) (hE : 0 < s.equity) :
    (step cfg prices s a).tradeCost
        = s.equity * |npClip a (-cfg.maxPosition) cfg.maxPosition - s.position| *
            cfg.transactionCost
      ∧ (step cfg prices s a).pnl
        = s.equity * npClip a (-cfg.maxPosition) cfg.maxPosition *
            (step cfg prices s a).priceReturn - (step cfg prices s a).tradeCost
      ∧ (step cfg prices s a).state.equity
        = max (s.equity + (step cfg prices s a).pnl) (1 / 1000000) :=
  ⟨rfl, rfl, rfl⟩

/-- Witness for `step_accounting` at a concrete configuration and state. -/
theorem step_accounting_witness :
    (0 : ℚ) < 1000 ∧
    ((step ⟨1, 1000, 1, 1/2000, 1⟩ [1, 2, 3] ⟨1, 0, 1000⟩ (1/2)).tradeCost
        = (1000 : ℚ) * |npClip (1/2) (-1) 1 - 0| * (1/2000)
      ∧ (step ⟨1, 1000, 1, 1/2000, 1⟩ [1, 2, 3] ⟨1, 0, 1000⟩ (1/2)).pnl
        = (1000 : ℚ) * npClip (1/2) (-1) 1 *
            (step ⟨1, 1000, 1, 1/2000, 1⟩ [1, 2, 3] ⟨1, 0, 1000⟩ (1/2)).priceReturn
            - (step ⟨1, 1000, 1, 1/2000, 1⟩ [1, 2, 3] ⟨1, 0, 1000⟩ (1/2)).tradeCost
      ∧ (step ⟨1, 1000, 1, 1/2000, 1⟩ [1, 2, 3] ⟨1, 0, 1000⟩ (1/2)).state.equity
        = max ((1000 : ℚ) +
            (step ⟨1, 1000, 1, 1/2000, 1⟩ [1, 2, 3] ⟨1, 0, 1000⟩ (1/2)).pnl)
            (1 / 1000000)) :=
  ⟨by norm_num, step_accounting ⟨1, 1000, 1, 1/2000, 1⟩ [1, 2, 3] ⟨1, 0, 1000⟩ (1/2)
    (by norm_num)⟩

/-- C9: when the previous bar's price is ≤ 0 the step's price return is 0 (the
division is never performed), so the pnl degenerates to minus the trade cost
and the new equity to `max (E - trade_cost) 1e-6`: no undefined quantity flows
into pnl, equity or reward. -/
theorem step_nonpositive_prev_price (cfg : TradingEnvConfig) (prices : List ℚ)
    (s : EnvState) (a : ℚ) (h : prices.getD (s.currentStep - 1) 0 ≤ 0) :
    (step cfg prices s a).priceReturn = 0
      ∧ (step cfg prices s a).pnl = -(step cfg prices s a).tradeCost
      ∧ (step cfg prices s a).state.equity
          = max (s.equity - (step cfg prices s a).tradeCost) epsFloor
      ∧ (step cfg prices s a).reward
          = cfg.rewardScale *
              (((step cfg prices s a).state.equity - s.equity) / max s.equity epsFloor) := by
  have hpr : (step cfg prices s a).priceReturn = 0 := by
    show (if prices.getD (s.currentStep - 1) 0 ≤ 0 then (0 : ℚ) else _) = 0
    rw [if_pos h]
  refine ⟨hpr, ?_, ?_, rfl⟩
  · show s.equity * (npClip a (-cfg.maxPosition) cfg.maxPosition) *
        (if prices.getD (s.currentStep - 1) 0 ≤ 0 then (0 : ℚ) else _) -
        (step cfg prices s a).tradeCost = -(step cfg prices s a).tradeCost
    rw [if_pos h]
    ring
  · show max (s.equity + (s.equity * (npClip a (-cfg.maxPosition) cfg.maxPosition) *
        (if prices.getD (s.currentStep - 1) 0 ≤ 0 then (0 : ℚ) else _) -
        (step cfg prices s a).tradeCost)) epsFloor
        = max (s.equity - (step cfg prices s a).tradeCost) epsFloor
    rw [if_pos h]
    ring_nf

/-- Witness for `step_nonpositive_prev_price`: a series whose previous bar
price is 0. -/
theorem step_nonpositive_prev_price_witness :
    ([(0 : ℚ), 5, 7].getD (1 - 1) 0 ≤ 0)
      ∧ ((step ⟨1, 100, 1, 0, 1⟩ [0, 5, 7] ⟨1, 0, 100⟩ 1).priceReturn = 0
      ∧ (step ⟨1, 100, 1, 0, 1⟩ [0, 5, 7] ⟨1, 0, 100⟩ 1).pnl
          = -(step ⟨1, 100, 1, 0, 1⟩ [0, 5, 7] ⟨1, 0, 100⟩ 1).tradeCost
      ∧ (step ⟨1, 100, 1, 0, 1⟩ [0, 5, 7] ⟨1, 0, 100⟩ 1).state.equity
          = max ((100 : ℚ) - (step ⟨1, 100, 1, 0, 1⟩ [0, 5, 7] ⟨1, 0, 100⟩ 1).tradeCost)
              epsFloor
      ∧ (step ⟨1, 100, 1, 0, 1⟩ [0, 5, 7] ⟨1, 0, 100⟩ 1).reward
          = (1 : ℚ) *
              (((step ⟨1, 100, 1, 0, 1⟩ [0, 5, 7] ⟨1, 0, 100⟩ 1).state.equity - 100) /
                max (100 : ℚ) epsFloor)) :=
  ⟨by decide, step_nonpositive_prev_price ⟨1, 100, 1, 0, 1⟩ [0, 5, 7] ⟨1, 0, 100⟩ 1
    (by decide)⟩

/-- C8 (counterexample): with `transaction_cost = 0`, `initial_cash = 0` and
action 0 the position stays 0, yet after one step the equity is the `1e-6`
floor, not the initial equity. -/
theorem equity_not_conserved_at_zero_cash :
    (step ⟨1, 0, 1, 0, 1⟩ [1, 1, 1] (resetState ⟨1, 0, 1, 0, 1⟩) 0).state.position = 0
      ∧ (step ⟨1, 0, 1, 0, 1⟩ [1, 1, 1] (resetState ⟨1, 0, 1, 0, 1⟩) 0).state.equity
          ≠ (⟨1, 0, 1, 0, 1⟩ : TradingEnvConfig).initialCash := by
  constructor
  · show npClip 0 (-(1 : ℚ)) 1 = 0
    norm_num [npClip, max_def, min_def]
  · show max ((0 : ℚ) + (0 * npClip 0 (-(1 : ℚ)) 1 *
        (if ([(1 : ℚ), 1, 1].getD (1 - 1) 0 ≤ 0) then (0 : ℚ) else
          ([(1 : ℚ), 1, 1].getD 1 0 - [(1 : ℚ), 1, 1].getD (1 - 1) 0) /
            [(1 : ℚ), 1, 1].getD (1 - 1) 0) -
        0 * |npClip 0 (-(1 : ℚ)) 1 - 0| * 0)) epsFloor ≠ 0
    norm_num [npClip, epsFloor, max_def, min_def]

/-- C8 (amended): with `transaction_cost = 0`, actions whose clipped target
position is 0 at every step, and an initial cash at or above the `1e-6` equity
floor, the equity after every step equals the initial cash. -/
theorem equity_conserved_when_flat (cfg : TradingEnvConfig) (prices : List ℚ)
    (actions : List ℚ) (hc : cfg.transactionCost = 0)
    (hE : epsFloor ≤ cfg.initialCash)
    (ha : ∀ a ∈ actions, npClip a (-cfg.maxPosition) cfg.maxPosition = 0) :
    (runSteps cfg prices (resetState cfg) actions).equity = cfg.initialCash :=
  (runSteps_flat cfg prices hc actions (resetState cfg) ha rfl hE).1

/-- Witness for `equity_conserved_when_flat`: three flat steps keep the
equity at the initial cash. -/
theorem equity_conserved_when_flat_witness :
    ((⟨2, 500, 1, 0, 1⟩ : TradingEnvConfig).transactionCost = 0
      ∧ epsFloor ≤ (⟨2, 500, 1, 0, 1⟩ : TradingEnvConfig).initialCash
      ∧ ∀ a ∈ [(0 : ℚ), 0, 0], npClip a (-(1 : ℚ)) 1 = 0)
      ∧ (runSteps ⟨2, 500, 1, 0, 1⟩ [3, 4, 5, 6, 7] (resetState ⟨2, 500, 1, 0, 1⟩)
          [0, 0, 0]).equity = 500 :=
  ⟨⟨rfl, by norm_num [epsFloor],
      by intro a ha; fin_cases ha <;> norm_num [npClip, max_def, min_def]⟩,
    equity_conserved_when_flat ⟨2, 500, 1, 0, 1⟩ [3, 4, 5, 6, 7] [0, 0, 0] rfl
      (by norm_num [epsFloor])
      (by intro a ha; fin_cases ha <;> norm_num [npClip, max_def, min_def])⟩

end RlEnv

namespace TechnicalIndicators

/-- Minimal model of the IEEE float values flowing through the pandas RSI
pipeline of `technical_indicators.py`: an exact rational, NaN, or a signed
infinity. -/
inductive PFloat where
  | val (q : ℚ)
  | nan
  | inf
  | ninf
deriving DecidableEq

namespace PFloat

/-- IEEE negation on the modelled values. -/
def neg : PFloat → PFloat
  | val q => val (-q)
  | nan => nan
  | inf => ninf
  | ninf => inf

/-- IEEE addition on the modelled values (signed zeros collapsed). -/
def add : PFloat → PFloat → PFloat
  | nan, _ => nan
  | _, nan => nan
  | inf, ninf => nan
  | ninf, inf => nan
  | inf, _ => inf
  | _, inf => inf
  | ninf, _ => ninf
  | _, ninf => ninf
  | val a, val b => val (a + b)

/-- IEEE subtraction. -/
def sub (x y : PFloat) : PFloat := add x (neg y)

/-- IEEE division on the modelled values: a finite value divided by zero is
a signed infinity (NaN for 0/0), as pandas produces for `gain / loss`. -/
def div : PFloat → PFloat → PFloat
  | nan, _ => nan
  | _, nan => nan
  | inf, inf => nan
  | inf, ninf => nan
  | ninf, inf => nan
  | ninf, ninf => nan
  | inf, val b => if 0 ≤ b then inf else ninf
  | ninf, val b => if 0 ≤ b then ninf else inf
  | val _, inf => val 0
  | val _, ninf => val 0
  | val a, val b =>
      if b = 0 then (if a = 0 then nan else if 0 < a then inf else ninf)
      else val (a / b)

end PFloat

/-- `Series.diff()` on the close column: NaN at index 0, consecutive
differences afterwards. -/
def seriesDiff (closes : List ℚ) : List PFloat :=
  match closes with
  | [] => []
  | c :: rest => PFloat.nan :: List.zipWith (fun b a => PFloat.val (b - a)) rest (c :: rest)

/-- `delta.where(delta > 0, 0)`: keep the difference where it is positive,
else 0; the NaN head compares false and is replaced by 0 as well (the diff
series holds only finite values and its NaN head, so the result is finite). -/
def whereGtZero : List PFloat → List ℚ :=
  List.map (fun d => match d with
    | PFloat.val q => if 0 < q then q else 0
    | _ => 0)

/-- `-delta.where(delta < 0, 0)`: keep the difference where it is negative,
else 0, then negate the whole series. -/
def negWhereLtZero : List PFloat → List ℚ :=
  List.map (fun d => match d with
    | PFloat.val q => if q < 0 then -q else 0
    | _ => 0)

/-- `Series.rolling(window=w).mean()` on a finite series: NaN for the first
`w - 1` indices, then the mean of the trailing `w` entries. -/
def rollingMean (w : ℕ) (l : List ℚ) : List PFloat :=
  (List.range l.length).map (fun i =>
    if i + 1 < w then PFloat.nan
    else PFloat.val (((l.take (i + 1)).drop (i + 1 - w)).sum / (w : ℚ)))

/-- The elementwise RSI formula `100 - 100 / (1 + rs)` applied to one `rs`
value. -/
def rsiOfRs (rs : PFloat) : PFloat :=
  PFloat.sub (PFloat.val 100) (PFloat.div (PFloat.val 100) (PFloat.add (PFloat.val 1) rs))

/-- `TechnicalIndicators.add_rsi` (technical_indicators.py lines 50-77),
producing the RSI column: gain/loss rolling means of the positive/negative
parts of the close diffs, `rs = gain / loss`, `RSI = 100 - 100 / (1 + rs)`. -/
def add_rsi (period : ℕ) (closes : List ℚ) : List PFloat :=
  let delta := seriesDiff closes
  let gain := rollingMean period (whereGtZero delta)
  let loss := rollingMean period (negWhereLtZero delta)
  List.zipWith (fun g l => rsiOfRs (PFloat.div g l)) gain loss

/-- One update of `ewm(span, adjust=False).mean()`:
`y_t = (1 - a) * y_{t-1} + a * x_t`. -/
def ewmStep (a y x : ℚ) : ℚ := (1 - a) * y + a * x

/-- The tail of the exponentially weighted mean from a given seed. -/
def ewmFrom (a : ℚ) : ℚ → List ℚ → List ℚ
  | _, [] => []
  | y, x :: xs => ewmStep a y x :: ewmFrom a (ewmStep a y x) xs

/-- `Series.ewm(span=span, adjust=False).mean()`: seeded with the first
element of the series. -/
def ewmAdjustFalse (a : ℚ) : List ℚ → List ℚ
  | [] => []
  | x :: xs => x :: ewmFrom a x xs

/-- The `EMA_{span}` column added by
`TechnicalIndicators.add_exponential_moving_averages`
(technical_indicators.py lines 31-48): `ewm(span=span, adjust=False).mean()`
of the close column, smoothing factor `2 / (span + 1)`. -/
def emaColumn (span : ℕ) (closes : List ℚ) : List ℚ :=
  ewmAdjustFalse (2 / ((span : ℚ) + 1)) closes

/-- `add_exponential_moving_averages` itself: one EMA column per period. -/
def add_exponential_moving_averages (closes : List ℚ) (periods : List ℕ) :
    List (ℕ × List ℚ) :=
  periods.map (fun p => (p, emaColumn p closes))

lemma ewmFrom_getD (a : ℚ) :
    ∀ (xs : List ℚ) (y : ℚ) (i : ℕ), i + 1 < xs.length →
      (ewmFrom a y xs).getD (i + 1) 0
        = ewmStep a ((ewmFrom a y xs).getD i 0) (xs.getD (i + 1) 0)
  | [], _, _, h => absurd h (by simp)
  | x :: rest, y, 0, h => by
      match rest, h with
      | r :: rest2, _ => rfl
  | x :: rest, y, i + 1, h => by
      have hlen : i + 1 < rest.length := by
        simpa [List.length_cons] using Nat.lt_of_succ_lt_succ h
      show (ewmFrom a (ewmStep a y x) rest).getD (i + 1) 0
        = ewmStep a ((ewmFrom a (ewmStep a y x) rest).getD i 0) (rest.getD (i + 1) 0)
      exact ewmFrom_getD a rest (ewmStep a y x) i hlen

lemma ewmAdjustFalse_getD (a : ℚ) (l : List ℚ) (i : ℕ) (h : i + 1 < l.length) :
    (ewmAdjustFalse a l).getD (i + 1) 0
      = ewmStep a ((ewmAdjustFalse a l).getD i 0) (l.getD (i + 1) 0) := by
  match l, i, h with
  | x :: xs, 0, h =>
      match xs, h with
      | z :: xs2, _ => rfl
  | x :: xs, i + 1, h =>
      have hlen : i + 1 < xs.length := by
        simpa [List.length_cons] using Nat.lt_of_succ_lt_succ h
      exact ewmFrom_getD a xs x i hlen

end TechnicalIndicators

namespace TechnicalIndicators

lemma length_seriesDiff (closes : List ℚ) :
    (seriesDiff closes).length = closes.length := by
  cases closes with
  | nil => rfl
  | cons c rest => simp [seriesDiff]

lemma length_rollingMean (w : ℕ) (l : List ℚ) :
    (rollingMean w l).length = l.length := by
  simp [rollingMean]

lemma add_rsi_getD (period : ℕ) (closes : List ℚ) (i : ℕ) (hi : i < closes.length) :
    (add_rsi period closes).getD i PFloat.nan
      = rsiOfRs (PFloat.div
          ((rollingMean period (whereGtZero (seriesDiff closes))).getD i PFloat.nan)
          ((rollingMean period (negWhereLtZero (seriesDiff closes))).getD i PFloat.nan)) := by
  have hg : i < (rollingMean period (whereGtZero (seriesDiff closes))).length := by
    rw [length_rollingMean, whereGtZero, List.length_map, length_seriesDiff]
    exact hi
  have hl : i < (rollingMean period (negWhereLtZero (seriesDiff closes))).length := by
    rw [length_rollingMean, negWhereLtZero, List.length_map, length_seriesDiff]
    exact hi
  simp [add_rsi, List.getD_eq_getElem?_getD, List.getElem?_zipWith,
    List.getElem?_eq_getElem hg, List.getElem?_eq_getElem hl]

/-- C4 (amended): at an index where the rolling loss mean is 0 but the rolling
gain mean is positive, `rs = gain / loss` is `+inf` and the RSI column holds
exactly 100 — the value is silently coerced, not a distinguished sentinel;
only when the gain mean is 0 as well (all diffs in the window zero) does the
RSI degenerate to the NaN sentinel. -/
theorem rsi_zero_loss_coerces_to_100 (period : ℕ) (closes : List ℚ) (i : ℕ)
    (hi : i < closes.length) :
    (∀ g : ℚ, 0 < g →
      (rollingMean period (whereGtZero (seriesDiff closes))).getD i PFloat.nan
          = PFloat.val g →
      (rollingMean period (negWhereLtZero (seriesDiff closes))).getD i PFloat.nan
          = PFloat.val 0 →
      (add_rsi period closes).getD i PFloat.nan = PFloat.val 100)
    ∧ ((rollingMean period (whereGtZero (seriesDiff closes))).getD i PFloat.nan
          = PFloat.val 0 →
      (rollingMean period (negWhereLtZero (seriesDiff closes))).getD i PFloat.nan
          = PFloat.val 0 →
      (add_rsi period closes).getD i PFloat.nan = PFloat.nan) := by
  constructor
  · intro g hg hG hL
    rw [add_rsi_getD period closes i hi, hG, hL]
    simp [rsiOfRs, PFloat.div, PFloat.add, PFloat.sub, PFloat.neg, hg, hg.ne']
  · intro hG hL
    rw [add_rsi_getD period closes i hi, hG, hL]
    simp [rsiOfRs, PFloat.div, PFloat.add, PFloat.sub, PFloat.neg]

/-- The 15 strictly increasing closes used to exhibit a zero-loss window. -/
def closes15 : List ℚ := [1, 2, 3, 4, 5, 6, 7, 8, 9, 10, 11, 12, 13, 14, 15]

lemma rollingMean_getD (w : ℕ) (l : List ℚ) (i : ℕ) (hi : i < l.length) :
    (rollingMean w l).getD i PFloat.nan
      = if i + 1 < w then PFloat.nan
        else PFloat.val (((l.take (i + 1)).drop (i + 1 - w)).sum / (w : ℚ)) := by
  simp [rollingMean, List.getD_eq_getElem?_getD, List.getElem?_map,
    List.getElem?_range hi]

lemma closes15_gain : whereGtZero (seriesDiff closes15)
    = [0, 1, 1, 1, 1, 1, 1, 1, 1, 1, 1, 1, 1, 1, 1] := by
  norm_num [whereGtZero, seriesDiff, closes15]

lemma closes15_loss : negWhereLtZero (seriesDiff closes15)
    = [0, 0, 0, 0, 0, 0, 0, 0, 0, 0, 0, 0, 0, 0, 0] := by
  norm_num [negWhereLtZero, seriesDiff, closes15]

lemma closes15_gain_mean :
    (rollingMean 14 (whereGtZero (seriesDiff closes15))).getD 13 PFloat.nan
      = PFloat.val (13/14) := by
  rw [closes15_gain, rollingMean_getD 14 _ 13 (by norm_num)]
  norm_num

lemma closes15_loss_mean :
    (rollingMean 14 (negWhereLtZero (seriesDiff closes15))).getD 13 PFloat.nan
      = PFloat.val 0 := by
  rw [closes15_loss, rollingMean_getD 14 _ 13 (by norm_num)]
  norm_num

/-- C4 (counterexample): on 15 strictly increasing closes the rolling-14
loss at index 13 is zero with positive gain, and the RSI there is exactly
`100`, not a sentinel. -/
theorem rsi_window_coerced_cx :
    (add_rsi 14 closes15).getD 13 PFloat.nan = PFloat.val 100 := by
  rw [add_rsi_getD 14 closes15 13 (by norm_num [closes15]), closes15_gain_mean,
    closes15_loss_mean]
  norm_num [rsiOfRs, PFloat.div, PFloat.add, PFloat.sub, PFloat.neg]

/-- Witness for `rsi_zero_loss_coerces_to_100` on the 15 increasing closes:
gain mean `13/14`, loss mean `0` at index 13. -/
theorem rsi_zero_loss_coerces_to_100_witness :
    ((13 < closes15.length)
      ∧ (0 : ℚ) < 13/14
      ∧ (rollingMean 14 (whereGtZero (seriesDiff closes15))).getD 13 PFloat.nan
          = PFloat.val (13/14)
      ∧ (rollingMean 14 (negWhereLtZero (seriesDiff closes15))).getD 13 PFloat.nan
          = PFloat.val 0)
      ∧ (add_rsi 14 closes15).getD 13 PFloat.nan = PFloat.val 100 :=
  ⟨⟨by norm_num [closes15], by norm_num, closes15_gain_mean, closes15_loss_mean⟩,
    (rsi_zero_loss_coerces_to_100 14 closes15 13 (by norm_num [closes15])).1
      (13/14) (by norm_num) closes15_gain_mean closes15_loss_mean⟩

/-- C6 (counterexample): for closes `[100, 102, 101, 105]` and span 2 the
fourth EMA value is `2800/27 ≈ 103.70`, not approximately `103.04`. -/
theorem ema_example_value_cx :
    (emaColumn 2 [100, 102, 101, 105]).getD 3 0 = 2800/27
      ∧ ¬(|(emaColumn 2 [100, 102, 101, 105]).getD 3 0 - 10304/100| ≤ 1/10) := by
  have h : (emaColumn 2 [100, 102, 101, 105]).getD 3 0 = 2800/27 := by
    norm_num [emaColumn, ewmAdjustFalse, ewmFrom, ewmStep]
  refine ⟨h, ?_⟩
  rw [h]
  rw [abs_le]
  norm_num

/-- C6 (amended): the EMA columns satisfy `EMA_0 = close_0` and
`EMA_t = EMA_{t-1} + a * (close_t - EMA_{t-1})` with `a = 2 / (span + 1)`,
and for closes `[100, 102, 101, 105]` at span 2 the column is
`[100, 304/3, 910/9, 2800/27] ≈ [100, 101.33, 101.11, 103.70]`. -/
theorem ema_recursion_and_example :
    (∀ (span : ℕ) (x : ℚ) (xs : List ℚ), (emaColumn span (x :: xs)).getD 0 0 = x)
    ∧ (∀ (span : ℕ) (l : List ℚ) (i : ℕ), i + 1 < l.length →
        (emaColumn span l).getD (i + 1) 0
          = (emaColumn span l).getD i 0
            + (2 / ((span : ℚ) + 1)) *
                (l.getD (i + 1) 0 - (emaColumn span l).getD i 0))
    ∧ emaColumn 2 [100, 102, 101, 105] = [100, 304/3, 910/9, 2800/27]
    ∧ |(304/3 : ℚ) - 10133/100| ≤ 1/100
    ∧ |(910/9 : ℚ) - 10111/100| ≤ 1/100
    ∧ |(2800/27 : ℚ) - 10370/100| ≤ 1/100 := by
  refine ⟨fun span x xs => rfl, fun span l i h => ?_, ?_, ?_, ?_, ?_⟩
  · simp only [emaColumn]
    rw [ewmAdjustFalse_getD (2 / ((span : ℚ) + 1)) l i h, ewmStep]
    ring
  · norm_num [emaColumn, ewmAdjustFalse, ewmFrom, ewmStep]
  · rw [abs_le]; constructor <;> norm_num
  · rw [abs_le]; constructor <;> norm_num
  · rw [abs_le]; constructor <;> norm_num

/-- Witness for the recursion part of `ema_recursion_and_example` at span 2,
index 0 of the example closes. -/
theorem ema_recursion_and_example_witness :
    (0 + 1 < ([100, 102, 101, 105] : List ℚ).length)
      ∧ (emaColumn 2 [100, 102, 101, 105]).getD (0 + 1) 0
          = (emaColumn 2 [100, 102, 101, 105]).getD 0 0
            + (2 / (((2 : ℕ) : ℚ) + 1)) *
                (([100, 102, 101, 105] : List ℚ).getD (0 + 1) 0
                  - (emaColumn 2 [100, 102, 101, 105]).getD 0 0) :=
  ⟨by decide, ema_recursion_and_example.2.1 2 [100, 102, 101, 105] 0 (by decide)⟩

end TechnicalIndicators

namespace TradingApi

/-- A field of a broker payload as seen by `float(x or 0)` under
`try/except`: absent (coerces to 0), unparseable (leaves the previous
`None`), or numeric. -/
inductive PyField where
  | missing
  | bad
  | num (q : ℚ)
deriving DecidableEq

/-- `float(h.get(key) or 0)` guarded by `try/except ... = None`. -/
def parseOr0 : PyField → Option ℚ
  | PyField.missing => some 0
  | PyField.bad => none
  | PyField.num q => some q

/-- A row of the `output1` holdings list of the balance payload, restricted
to the fields the daily-cap path of `check_risk_limit` reads. -/
structure Holding where
  pdno : String
  prpr : PyField
deriving DecidableEq

/-- trading_api.py lines 145-171: the holdings scan of `check_risk_limit`
that sets `current_price` for the requested stock; it stays `None` when the
code never appears among the holdings, and an unparseable quote also leaves
`None`. -/
def deriveCurrentPrice (holdings : List Holding) (stock_code : String) : Option ℚ :=
  holdings.foldl
    (fun acc h => if h.pdno = stock_code then parseOr0 h.prpr else acc) none

/-- A persisted `TradeOrder` row, restricted to the fields the daily-cap
query reads (`created_at` as an abstract timestamp). -/
structure TradeOrderRow where
  created_at : ℕ
  stock_code : String
  side : String
  status : String
  order_amount : Option ℚ
deriving DecidableEq

/-- trading_api.py lines 190-204: the amount summed by the daily-cap check —
today's `BUY` orders with status `OK`, `float(o.order_amount or 0)` each.
Note there is no `stock_code` filter in the query. -/
def spentToday (orders : List TradeOrderRow) (startOfToday : ℕ) : ℚ :=
  (orders.filter (fun o =>
      decide (startOfToday ≤ o.created_at) && decide (o.side = "BUY")
        && decide (o.status = "OK"))).foldl
    (fun s o => s + o.order_amount.getD 0) 0

/-- trading_api.py lines 183-219: the daily-buy-amount gate inside
`check_risk_limit`; `true` means the request is rejected (HTTP 400). -/
def dailyCapRejects (max_daily_buy_amount : ℚ) (orders : List TradeOrderRow)
    (startOfToday : ℕ) (current_price : Option ℚ) (quantity : ℕ) : Bool :=
  if 0 < max_daily_buy_amount then
    let spent := spentToday orders startOfToday
    let est_price := current_price.getD 0
    let est_amount := if 0 < est_price then est_price * (quantity : ℚ) else 0
    decide (0 < est_amount ∧ max_daily_buy_amount + 1/1000000 < spent + est_amount)
  else false

/-- Modelled from the claim's words, for comparison with `dailyCapRejects`:
sum only today's prior OK-status BUY amount for the requested instrument,
add the estimated new amount at the last known price, and reject exactly
when that sum exceeds the cap. -/
def dailyCapRejectsSpec (max_daily_buy_amount : ℚ) (orders : List TradeOrderRow)
    (startOfToday : ℕ) (stock_code : String) (current_price : Option ℚ)
    (quantity : ℕ) : Bool :=
  if 0 < max_daily_buy_amount then
    let spent := ((orders.filter (fun o =>
        decide (startOfToday ≤ o.created_at) && decide (o.side = "BUY")
          && decide (o.status = "OK") && decide (o.stock_code = stock_code))).map
      (fun o => o.order_amount.getD 0)).sum
    let est_price := current_price.getD 0
    let est_amount := if 0 < est_price then est_price * (quantity : ℚ) else 0
    decide (max_daily_buy_amount < spent + est_amount)
  else false

/-- A `RiskSetting` row (database.py lines 166-178). -/
structure RiskSettingRow where
  stock_code : String
  active : Bool
  max_position_shares : Option ℤ
  max_weight_pct : Option ℚ
  max_daily_buy_amount : Option ℚ
deriving DecidableEq

/-- trading_api.py lines 121-132: the SQLAlchemy lookup — active rows whose
`stock_code` is the requested code or `"ALL"`, ordered by `stock_code`
descending, first row: the matching row with the lexicographically greatest
`stock_code` (first one wins ties; `stock_code` is unique). -/
def queryRiskSetting (rows : List RiskSettingRow) (stock_code : String) :
    Option RiskSettingRow :=
  (rows.filter (fun r => r.active
      && (decide (r.stock_code = stock_code) || decide (r.stock_code = "ALL")))).foldl
    (fun best r =>
      match best with
      | none => some r
      | some b => if b.stock_code < r.stock_code then some r else some b)
    none

/-- The process defaults of trading_api.py lines 100-102 (env defaults
`10`, `0.5`, `0`). -/
def DEFAULT_MAX_POSITION_SHARES : ℤ := 10

def DEFAULT_MAX_WEIGHT_PCT : ℚ := 1/2

def DEFAULT_MAX_DAILY_BUY_AMOUNT : ℚ := 0

/-- The limits `check_risk_limit` ends up applying. -/
structure EffectiveLimits where
  max_shares : ℤ
  max_weight_pct : ℚ
  max_daily_buy_amount : ℚ
deriving DecidableEq

/-- trading_api.py lines 134-143: start from the process defaults and
override each field the resolved setting row carries. -/
def effectiveLimits (rows : List RiskSettingRow) (stock_code : String) :
    EffectiveLimits :=
  match queryRiskSetting rows stock_code with
  | none => ⟨DEFAULT_MAX_POSITION_SHARES, DEFAULT_MAX_WEIGHT_PCT,
      DEFAULT_MAX_DAILY_BUY_AMOUNT⟩
  | some s => ⟨s.max_position_shares.getD DEFAULT_MAX_POSITION_SHARES,
      s.max_weight_pct.getD DEFAULT_MAX_WEIGHT_PCT,
      s.max_daily_buy_amount.getD DEFAULT_MAX_DAILY_BUY_AMOUNT⟩

end TradingApi

namespace TradingApi

lemma foldl_add_amount (l : List TradeOrderRow) :
    ∀ c : ℚ, l.foldl (fun s o => s + o.order_amount.getD 0) c
      = c + (l.map (fun o => o.order_amount.getD 0)).sum := by
  induction l with
  | nil => intro c; simp
  | cons x xs ih =>
      intro c
      rw [List.foldl_cons, ih, List.map_cons, List.sum_cons]
      ring

lemma spentToday_eq_sum (orders : List TradeOrderRow) (t : ℕ) :
    spentToday orders t
      = ((orders.filter (fun o => decide (t ≤ o.created_at) && decide (o.side = "BUY")
            && decide (o.status = "OK"))).map (fun o => o.order_amount.getD 0)).sum := by
  rw [spentToday, foldl_add_amount, zero_add]

/-- C2 (counterexample): an OK BUY order of 200 for instrument "B" placed
today makes the gate reject a BUY of 1 share of instrument "A" at price 50
under a cap of 100, although the prior OK BUY amount for "A" itself is 0 and
0 + 50 does not exceed the cap. -/
theorem daily_cap_counts_other_instruments :
    dailyCapRejects 100 [⟨5, "B", "BUY", "OK", some 200⟩] 0 (some 50) 1 = true
      ∧ dailyCapRejectsSpec 100 [⟨5, "B", "BUY", "OK", some 200⟩] 0 "A" (some 50) 1
          = false := by
  constructor
  · norm_num [dailyCapRejects, spentToday]
  · have hBA : ¬ (("B" : String) = "A") := by decide
    norm_num [dailyCapRejectsSpec, List.filter_cons, List.filter_nil, hBA]

/-- C2 (amended): with a positive cap configured, the daily gate rejects a
BUY exactly when the estimated new amount (at the last known price) is
positive and today's prior OK-status BUY amount summed over ALL instruments
plus that estimate exceeds the cap plus a `1e-6` tolerance. -/
theorem daily_cap_rejects_iff (cap : ℚ) (orders : List TradeOrderRow) (t : ℕ)
    (price : Option ℚ) (qty : ℕ) (hcap : 0 < cap) :
    dailyCapRejects cap orders t price qty = true
      ↔ (0 < (if 0 < price.getD 0 then price.getD 0 * (qty : ℚ) else 0)
          ∧ cap + 1/1000000
              < ((orders.filter (fun o => decide (t ≤ o.created_at)
                    && decide (o.side = "BUY") && decide (o.status = "OK"))).map
                  (fun o => o.order_amount.getD 0)).sum
                + (if 0 < price.getD 0 then price.getD 0 * (qty : ℚ) else 0)) := by
  rw [dailyCapRejects, if_pos hcap, spentToday_eq_sum]
  simp

/-- Witness for `daily_cap_rejects_iff` at the concrete counterexample
input. -/
theorem daily_cap_rejects_iff_witness :
    (0 : ℚ) < 100
      ∧ (dailyCapRejects 100 [⟨5, "B", "BUY", "OK", some 200⟩] 0 (some 50) 1 = true
        ↔ (0 < (if 0 < (some (50 : ℚ)).getD 0 then (some (50 : ℚ)).getD 0 * ((1 : ℕ) : ℚ) else 0)
          ∧ (100 : ℚ) + 1/1000000
              < ((([⟨5, "B", "BUY", "OK", some 200⟩] :
                    List TradeOrderRow).filter (fun o => decide (0 ≤ o.created_at)
                    && decide (o.side = "BUY") && decide (o.status = "OK"))).map
                  (fun o => o.order_amount.getD 0)).sum
                + (if 0 < (some (50 : ℚ)).getD 0 then (some (50 : ℚ)).getD 0 * ((1 : ℕ) : ℚ) else 0))) :=
  ⟨by norm_num,
    daily_cap_rejects_iff 100 [⟨5, "B", "BUY", "OK", some 200⟩] 0 (some 50) 1
      (by norm_num)⟩

lemma deriveCurrentPrice_none (holdings : List Holding) (code : String)
    (h : ∀ hd ∈ holdings, hd.pdno ≠ code) :
    deriveCurrentPrice holdings code = none := by
  induction holdings with
  | nil => rfl
  | cons hd tl ih =>
      have h1 : (if hd.pdno = code then parseOr0 hd.prpr else none) = none :=
        if_neg (h hd (List.mem_cons_self hd tl))
      show (hd :: tl).foldl
        (fun acc x => if x.pdno = code then parseOr0 x.prpr else acc) none = none
      rw [List.foldl_cons, h1]
      exact ih (fun x hx => h x (List.mem_cons_of_mem hd hx))

/-- C10: when the requested instrument is absent from the holdings list,
`current_price` stays `None`, the estimated amount is 0, and the daily-cap
gate never rejects — whatever was already spent today and however small the
cap. -/
theorem missing_price_never_rejects (cap : ℚ) (orders : List TradeOrderRow)
    (t : ℕ) (holdings : List Holding) (code : String) (qty : ℕ)
    (h : ∀ hd ∈ holdings, hd.pdno ≠ code) :
    deriveCurrentPrice holdings code = none
      ∧ dailyCapRejects cap orders t (deriveCurrentPrice holdings code) qty
          = false := by
  have hp := deriveCurrentPrice_none holdings code h
  refine ⟨hp, ?_⟩
  rw [hp, dailyCapRejects]
  by_cases hc : 0 < cap
  · rw [if_pos hc]
    simp
  · rw [if_neg hc]

/-- Witness for `missing_price_never_rejects`: a huge prior spend and a tiny
cap still pass when the instrument is not held. -/
theorem missing_price_never_rejects_witness :
    (∀ hd ∈ ([⟨"B", PyField.num 70⟩] : List Holding), hd.pdno ≠ "A")
      ∧ (deriveCurrentPrice [⟨"B", PyField.num 70⟩] "A" = none
        ∧ dailyCapRejects 100 [⟨5, "B", "BUY", "OK", some 1000000⟩] 0
            (deriveCurrentPrice [⟨"B", PyField.num 70⟩] "A") 999 = false) :=
  ⟨by simp, missing_price_never_rejects 100 [⟨5, "B", "BUY", "OK", some 1000000⟩] 0
    [⟨"B", PyField.num 70⟩] "A" 999 (by simp)⟩

/-- C3 (code behaviour at the failing input): with an active
instrument-specific row for `"005930"` (5 shares) and an active `"ALL"` row
(99 shares) the lookup returns the `"ALL"` row, because `"ALL"` is
lexicographically greater than the digit-initial code and the query takes
the first row of a descending sort — the wildcard shadows the
instrument-specific limits; with no rows, the process defaults apply. -/
theorem all_row_shadows_instrument :
    queryRiskSetting
        [⟨"005930", true, some 5, none, none⟩, ⟨"ALL", true, some 99, none, none⟩]
        "005930"
      = some ⟨"ALL", true, some 99, none, none⟩
    ∧ (effectiveLimits
        [⟨"005930", true, some 5, none, none⟩, ⟨"ALL", true, some 99, none, none⟩]
        "005930").max_shares = 99
    ∧ effectiveLimits [] "005930"
      = ⟨DEFAULT_MAX_POSITION_SHARES, DEFAULT_MAX_WEIGHT_PCT,
          DEFAULT_MAX_DAILY_BUY_AMOUNT⟩ := by
  have hlt : (['0', '0', '5', '9', '3', '0'] : List Char) < ['A', 'L', 'L'] := by
    decide
  refine ⟨?_, ?_, rfl⟩
  · simp [queryRiskSetting]
    exact hlt
  · simp [effectiveLimits, queryRiskSetting, hlt]

end TradingApi

namespace KisBroker

/-- The `output` sub-dict of a KIS order response, restricted to the keys
`_place_market_order_internal` reads. -/
structure KisOutput where
  pdname : Option String
  ord_unpr : Option ℚ
  ord_qty : Option ℚ
deriving DecidableEq

/-- What `resp.json()` produced for the order POST: a parsed JSON dict with
its `rt_cd` and optional `output` sub-dict, or the `raw`-keyed wrapper the
broker builds when the body is unparseable. -/
inductive KisResp where
  | parsed (rt_cd : Option String) (output : Option KisOutput)
  | rawWrapped (text : String)
deriving DecidableEq

/-- `js.get("rt_cd")`: the wrapper dict has no such key. -/
def KisResp.rt_cd : KisResp → Option String
  | KisResp.parsed rt _ => rt
  | KisResp.rawWrapped _ => none

/-- `res.get("output")`. -/
def KisResp.output : KisResp → Option KisOutput
  | KisResp.parsed _ o => o
  | KisResp.rawWrapped _ => none

/-- The transport-level outcome of the order POST: an exception raised by
`requests`/auth, or an HTTP response with a status code and body. -/
inductive HttpOutcome where
  | exn (msg : String)
  | resp (status_code : ℕ) (body : KisResp)
deriving DecidableEq

/-- `KISBroker.place_cash_order` (kis_broker.py lines 124-179), as driven by
`buy_market`/`sell_market`: reject a quantity below 1, surface any transport
exception, and raise unless the HTTP status is 200 and `rt_cd` is absent or
`"0"`; an unparseable body arrives here already wrapped as a raw dict. -/
def place_cash_order (quantity : ℕ) (h : HttpOutcome) : Except String KisResp :=
  if quantity < 1 then Except.error "quantity must be at least 1"
  else
    match h with
    | HttpOutcome.exn m => Except.error m
    | HttpOutcome.resp sc js =>
        if sc ≠ 200 ∨ ¬(js.rt_cd = none ∨ js.rt_cd = some "0") then
          Except.error "KIS order failed"
        else Except.ok js

end KisBroker

namespace TradingApi

open KisBroker

/-- A persisted `TradeOrder` row as written by
`_place_market_order_internal` (the raw response kept as the broker value
that gets serialised verbatim). -/
structure TradeOrderRec where
  stock_code : String
  stock_name : Option String
  side : String
  quantity : ℕ
  order_price : Option ℚ
  order_amount : Option ℚ
  status : String
  raw_response : KisResp
deriving DecidableEq

/-- `_place_market_order_internal` (trading_api.py lines 1453-1504): check
the side, run the risk gate, call the broker — any exception there becomes
an HTTP 500 with no audit row — then build one TradeOrder row, `OK` iff the
returned dict's `rt_cd` is absent or `"0"`, raw response attached, and
commit it; a failing commit is rolled back and swallowed. Returns the rows
committed together with the result surfaced to the caller. -/
def place_market_order_internal (stock_code side : String) (quantity : ℕ)
    (riskRejects : Bool) (h : HttpOutcome) (auditCommitOk : Bool) :
    List TradeOrderRec × Except String KisResp :=
  if ¬(side = "BUY" ∨ side = "SELL") then
    ([], Except.error "side must be BUY or SELL")
  else if riskRejects then ([], Except.error "risk limit exceeded")
  else
    match place_cash_order quantity h with
    | Except.error e => ([], Except.error ("KIS order failed: " ++ e))
    | Except.ok res =>
        let stock_name := match res.output with
          | some o => o.pdname
          | none => none
        let order_price := match res.output with
          | some o => some (o.ord_unpr.getD 0)
          | none => none
        let order_amount := match res.output with
          | some o => some (o.ord_unpr.getD 0 * o.ord_qty.getD (quantity : ℚ))
          | none => none
        let status := if res.rt_cd = none ∨ res.rt_cd = some "0" then "OK" else "ERROR"
        let row : TradeOrderRec :=
          ⟨stock_code, stock_name, side, quantity, order_price, order_amount,
            status, res⟩
        ((if auditCommitOk then [row] else []), Except.ok res)

lemma place_cash_order_ok (quantity : ℕ) (h : HttpOutcome) (res : KisResp)
    (hres : place_cash_order quantity h = Except.ok res) :
    res.rt_cd = none ∨ res.rt_cd = some "0" := by
  rw [place_cash_order.eq_def] at hres
  by_cases hq : quantity < 1
  · rw [if_pos hq] at hres
    exact absurd hres (by simp)
  · rw [if_neg hq] at hres
    cases h with
    | exn m => exact absurd hres (by simp)
    | resp sc js =>
        change (if sc ≠ 200 ∨ ¬(js.rt_cd = none ∨ js.rt_cd = some "0") then
            Except.error "KIS order failed" else Except.ok js) = Except.ok res at hres
        by_cases hc : sc ≠ 200 ∨ ¬(js.rt_cd = none ∨ js.rt_cd = some "0")
        · rw [if_pos hc] at hres
          exact absurd hres (by simp)
        · rw [if_neg hc] at hres
          push_neg at hc
          cases hres
          exact hc.2

/-- C1 (counterexample): a transport failure on a risk-approved BUY persists
no `OrderRecord` at all — the exception is surfaced before the audit block
runs — rather than exactly one ERROR record. -/
theorem order_transport_failure_unaudited :
    (place_market_order_internal "005930" "BUY" 1 false
        (HttpOutcome.exn "timeout") true).1 = []
      ∧ (place_market_order_internal "005930" "BUY" 1 false
          (HttpOutcome.exn "timeout") true).2
        = Except.error ("KIS order failed: " ++ "timeout") := by
  constructor
  · rfl
  · rfl

/-- C1 (amended): on a risk-approved attempt, a broker-call failure
(transport error, non-200 status, or non-zero `rt_cd` — all raised inside
the broker) persists no record and surfaces an error; when the broker call
returns, its `rt_cd` is necessarily absent or `"0"`, and, provided the audit
commit succeeds, exactly one record is persisted, with status `OK` and the
raw response preserved verbatim (a failing commit is swallowed and persists
nothing). -/
theorem order_audit_characterisation (stock_code side : String) (quantity : ℕ)
    (h : HttpOutcome) (auditCommitOk : Bool)
    (hside : side = "BUY" ∨ side = "SELL") :
    (∀ e, place_cash_order quantity h = Except.error e →
      place_market_order_internal stock_code side quantity false h auditCommitOk
        = ([], Except.error ("KIS order failed: " ++ e)))
    ∧ (∀ res, place_cash_order quantity h = Except.ok res →
      (res.rt_cd = none ∨ res.rt_cd = some "0")
        ∧ place_market_order_internal stock_code side quantity false h true
            = ([⟨stock_code,
                (match res.output with | some o => o.pdname | none => none),
                side, quantity,
                (match res.output with | some o => some (o.ord_unpr.getD 0) | none => none),
                (match res.output with
                  | some o => some (o.ord_unpr.getD 0 * o.ord_qty.getD (quantity : ℚ))
                  | none => none),
                "OK", res⟩], Except.ok res)
        ∧ (place_market_order_internal stock_code side quantity false h false).1
            = []) := by
  have hnn : ¬¬(side = "BUY" ∨ side = "SELL") := not_not_intro hside
  constructor
  · intro e he
    rw [place_market_order_internal, if_neg hnn, if_neg (by simp), he]
  · intro res hres
    have hrt : res.rt_cd = none ∨ res.rt_cd = some "0" :=
      place_cash_order_ok quantity h res hres
    refine ⟨hrt, ?_, ?_⟩
    · rw [place_market_order_internal, if_neg hnn, if_neg (by simp), hres]
      simp [hrt]
    · rw [place_market_order_internal, if_neg hnn, if_neg (by simp), hres]
      simp

/-- Witness for `order_audit_characterisation` on a successful broker
response. -/
theorem order_audit_characterisation_witness :
    (("BUY" : String) = "BUY" ∨ ("BUY" : String) = "SELL")
      ∧ place_cash_order 1 (HttpOutcome.resp 200 (KisResp.parsed (some "0") none))
          = Except.ok (KisResp.parsed (some "0") none)
      ∧ (((KisResp.parsed (some "0") none).rt_cd = none
            ∨ (KisResp.parsed (some "0") none).rt_cd = some "0")
        ∧ place_market_order_internal "005930" "BUY" 1 false
            (HttpOutcome.resp 200 (KisResp.parsed (some "0") none)) true
            = ([⟨"005930", none, "BUY", 1, none, none, "OK",
                KisResp.parsed (some "0") none⟩],
              Except.ok (KisResp.parsed (some "0") none))
        ∧ (place_market_order_internal "005930" "BUY" 1 false
            (HttpOutcome.resp 200 (KisResp.parsed (some "0") none)) false).1 = []) :=
  ⟨Or.inl rfl, rfl,
    (order_audit_characterisation "005930" "BUY" 1
      (HttpOutcome.resp 200 (KisResp.parsed (some "0") none)) true
      (Or.inl rfl)).2 (KisResp.parsed (some "0") none) rfl⟩

end TradingApi

namespace TradingApi

/-- An `AccountSnapshot` row (database.py lines 151-163), restricted to the
fields `get_performance` reads; all nullable. -/
structure SnapRow where
  total_value : Option ℚ
  cash : Option ℚ
  total_buy_amount : Option ℚ
  total_eval_amount : Option ℚ
  total_pnl : Option ℚ
deriving DecidableEq

/-- The summary part of the `get_performance` response. -/
structure PerformanceSummary where
  start_value : ℚ
  end_value : ℚ
  total_return_pct : ℚ
  max_drawdown_pct : ℚ
  pnl_sum : ℚ
deriving DecidableEq

/-- One iteration of the drawdown loop of `get_performance`
(trading_api.py lines 2737-2745): raise the running peak, then, while the
peak is positive, raise the running maximum drawdown. -/
def ddStep (s : ℚ × ℚ) (v : ℚ) : ℚ × ℚ :=
  let peak := if s.1 < v then v else s.1
  if 0 < peak then
    (peak, if s.2 < (peak - v) / peak * 100 then (peak - v) / peak * 100 else s.2)
  else (peak, s.2)

/-- `get_performance` (trading_api.py lines 2689-2757), summary part: over
the ordered snapshots of the lookback window (`None` fields coerced to 0):
start and end values, total return percent (0 for a zero start), the
running-peak maximum drawdown percent, and the summed pnl; an empty window
gives the all-zero summary rather than an error. -/
def get_performance (rows : List SnapRow) : PerformanceSummary :=
  match rows with
  | [] => ⟨0, 0, 0, 0, 0⟩
  | r0 :: _ =>
      let equity := rows.map (fun r => r.total_value.getD 0)
      let start_val := r0.total_value.getD 0
      let end_val := equity.getLastD 0
      let total_return_pct :=
        if start_val = 0 then 0 else (end_val - start_val) / start_val * 100
      let max_dd := (equity.foldl ddStep (start_val, 0)).2
      let pnl_sum := (rows.map (fun r => r.total_pnl.getD 0)).sum
      ⟨start_val, end_val, total_return_pct, max_dd, pnl_sum⟩

/-- Modelled from the spec's words, for comparison: the running peak and the
maximum over the series of `(running_peak - value) / running_peak * 100`
(division by zero yielding 0 in `ℚ`). -/
def specDrawdownStep (s : ℚ × ℚ) (v : ℚ) : ℚ × ℚ :=
  (max s.1 v, max s.2 ((max s.1 v - v) / max s.1 v * 100))

/-- The spec-side maximum drawdown over the whole series. -/
def specMaxDrawdown (equity : List ℚ) : ℚ :=
  (equity.foldl specDrawdownStep (equity.headD 0, 0)).2

lemma ite_lt_eq_max (a b : ℚ) : (if a < b then b else a) = max a b := by
  rcases le_or_lt b a with hba | hab
  · rw [if_neg (not_lt.mpr hba), max_eq_left hba]
  · rw [if_pos hab, max_eq_right hab.le]

lemma dd_fold_eq : ∀ (l : List ℚ) (peak d : ℚ), 0 ≤ d →
    (l.foldl ddStep (peak, d)).2 = (l.foldl specDrawdownStep (peak, d)).2
  | [], _, _, _ => rfl
  | v :: rest, peak, d, hd => by
      rw [List.foldl_cons, List.foldl_cons]
      have hspec : specDrawdownStep (peak, d) v
          = (max peak v, max d ((max peak v - v) / max peak v * 100)) := rfl
      by_cases hp : 0 < max peak v
      · have hdd : ddStep (peak, d) v
            = (max peak v, max d ((max peak v - v) / max peak v * 100)) := by
          simp only [ddStep, ite_lt_eq_max]
          rw [if_pos hp]
        rw [hdd, hspec]
        exact dd_fold_eq rest (max peak v) (max d ((max peak v - v) / max peak v * 100))
          (le_trans hd (le_max_left d _))
      · have hple : max peak v ≤ 0 := not_lt.mp hp
        have ht : (max peak v - v) / max peak v * 100 ≤ d := by
          rcases eq_or_lt_of_le hple with heq | hlt0
          · rw [heq, div_zero, zero_mul]
            exact hd
          · have hv : v ≤ max peak v := le_max_right peak v
            have hnum : 0 ≤ max peak v - v := sub_nonneg.mpr hv
            have hq : (max peak v - v) / max peak v ≤ 0 :=
              div_nonpos_iff.mpr (Or.inl ⟨hnum, hple⟩)
            nlinarith [hq, hd]
        have hdd : ddStep (peak, d) v = (max peak v, d) := by
          simp only [ddStep, ite_lt_eq_max]
          rw [if_neg hp]
        rw [hdd, hspec, max_eq_left ht]
        exact dd_fold_eq rest (max peak v) d hd

/-- C7: over any non-empty ordered snapshot window, the summary's start and
end values are the first and last `total_value`, the total return percent is
`(end - start)/start * 100` (0 for a zero start), the maximum drawdown
percent is the maximum over the series of
`(running_peak - value)/running_peak * 100`, and `pnl_sum` is the summed
`total_pnl`; the `[100, 120, 90, 130]` example yields
`(100, 130, 30%, 25%, 0)`; the empty window yields the all-zero summary. -/
theorem get_performance_summary :
    (∀ (r0 : SnapRow) (rest : List SnapRow),
      (get_performance (r0 :: rest)).start_value = r0.total_value.getD 0
        ∧ (get_performance (r0 :: rest)).end_value
            = ((r0 :: rest).map (fun r => r.total_value.getD 0)).getLastD 0
        ∧ (get_performance (r0 :: rest)).total_return_pct
            = (if r0.total_value.getD 0 = 0 then 0
              else (((r0 :: rest).map (fun r => r.total_value.getD 0)).getLastD 0
                  - r0.total_value.getD 0) / r0.total_value.getD 0 * 100)
        ∧ (get_performance (r0 :: rest)).max_drawdown_pct
            = specMaxDrawdown ((r0 :: rest).map (fun r => r.total_value.getD 0))
        ∧ (get_performance (r0 :: rest)).pnl_sum
            = ((r0 :: rest).map (fun r => r.total_pnl.getD 0)).sum)
    ∧ get_performance
        [⟨some 100, none, none, none, none⟩, ⟨some 120, none, none, none, none⟩,
          ⟨some 90, none, none, none, none⟩, ⟨some 130, none, none, none, none⟩]
        = ⟨100, 130, 30, 25, 0⟩
    ∧ get_performance [] = ⟨0, 0, 0, 0, 0⟩ := by
  refine ⟨fun r0 rest => ?_, ?_, rfl⟩
  · have hmax : (get_performance (r0 :: rest)).max_drawdown_pct
        = specMaxDrawdown ((r0 :: rest).map (fun r => r.total_value.getD 0)) := by
      show (((r0 :: rest).map (fun r => r.total_value.getD 0)).foldl ddStep
          (r0.total_value.getD 0, 0)).2
        = specMaxDrawdown ((r0 :: rest).map (fun r => r.total_value.getD 0))
      rw [specMaxDrawdown, List.map_cons, List.headD_cons]
      exact dd_fold_eq
        (r0.total_value.getD 0 :: rest.map (fun r => r.total_value.getD 0))
        (r0.total_value.getD 0) 0 le_rfl
    exact ⟨rfl, rfl, rfl, hmax, rfl⟩
  · norm_num [get_performance, ddStep, List.getLastD]

end TradingApi
